import Mathlib

/-!
Shallow embedding of `ip17mon.go` (package `ip17mon`): an in-memory IPv4
geolocation lookup table.  Go byte strings are modelled as `List Nat`
(each entry one byte), Go `int64`/`uint64` as `Int`/`Nat` with explicit
clamping where the Go standard library clamps, and Go runtime panics as
explicit outcome constructors (`panics`), since the corresponding Go
functions have no error return value.
-/

namespace Ip17mon

/-- Bytes of an ASCII string, used to write concrete record payloads. -/
def bytesOf (s : String) : List Nat :=
  s.toList.map Char.toNat

/-- Embeds `const Null = "N/A"` (ip17mon.go line 13). -/
def Null : List Nat := bytesOf "N/A"

/-- Embeds `bytes.Split(str, sep)` for a single-byte separator: splits
around every occurrence of `sep`; the empty input yields one empty field. -/
def splitByte (sep : Nat) : List Nat → List (List Nat)
  | [] => [[]]
  | b :: rest =>
    if b = sep then [] :: splitByte sep rest
    else
      match splitByte sep rest with
      | [] => [[b]]
      | f :: fs => (b :: f) :: fs

/-- ASCII decimal digit test ('0' = 48 … '9' = 57). -/
def isDigitB (b : Nat) : Bool := 48 ≤ b && b ≤ 57

/-- Value of a list of ASCII decimal digit bytes, most significant first. -/
def digitsVal (l : List Nat) : Nat :=
  l.foldl (fun n b => n * 10 + (b - 48)) 0

/-- Largest value representable in a Go `uint64`. -/
def maxU64 : Nat := 2 ^ 64 - 1

/-- Models Go `strconv.ParseUint(s, 10, 64)` (called by `newLocationInfo`):
returns the value together with an error-free flag.  A syntax error (empty
string or a non-digit byte, including any sign) yields `(0, false)`; a value
out of range yields the clamped maximum together with `false`. -/
def goParseUint64 (s : List Nat) : Nat × Bool :=
  if s = [] ∨ ¬ (s.all isDigitB) then (0, false)
  else if maxU64 < digitsVal s then (maxU64, false)
  else (digitsVal s, true)

/-- Models Go `strconv.ParseInt(s, 10, 64)` (called by `newLocationInfo`):
an optional leading `+`/`-` sign followed by decimal digits.  Syntax errors
yield `(0, false)`; values beyond the signed 64-bit range yield the clamped
extreme (`2^63 - 1` or `-2^63`) together with `false`. -/
def goParseInt64 (s : List Nat) : Int × Bool :=
  if s = [] then (0, false)
  else
    let neg := s.headD 0 = 45
    let digs := if s.headD 0 = 43 ∨ s.headD 0 = 45 then s.tail else s
    if digs = [] ∨ ¬ (digs.all isDigitB) then (0, false)
    else
      let un := min (digitsVal digs) maxU64
      if ¬ neg ∧ 2 ^ 63 ≤ un then ((2 : Int) ^ 63 - 1, false)
      else if neg ∧ 2 ^ 63 < un then (-(2 : Int) ^ 63, false)
      else ((if neg then -(un : Int) else (un : Int)), true)

/-- Embeds `type LocationInfo` (ip17mon.go lines 96-106).  Text fields are
byte strings; `Location_id` is a `uint64` value, the signed ids `int64`. -/
structure LocationInfo where
  Country : List Nat
  Region : List Nat
  City : List Nat
  Isp : List Nat
  Country_id : Int
  Province_id : Int
  City_id : Int
  Isp_id : Int
  Location_id : Nat
deriving DecidableEq, Repr

/-- Outcome of `newLocationInfo`: the Go function returns `*LocationInfo`
and has no error return; its only failure mode is the runtime panic
`panic("unexpected ip info:" + string(str))` on an unexpected field count. -/
inductive ParseOutcome where
  | ok (info : LocationInfo)
  | panics
deriving DecidableEq, Repr

/-- Embeds the trailing empty-field normalization of `newLocationInfo`
(lines 218-229): a length-zero text field is replaced by `Null`. -/
def normNull (s : List Nat) : List Nat :=
  if s.length = 0 then Null else s

/-- Applies `normNull` to the four text fields of a `LocationInfo`,
leaving the numeric ids untouched (lines 218-229). -/
def normalizeInfo (i : LocationInfo) : LocationInfo :=
  ⟨normNull i.Country, normNull i.Region, normNull i.City, normNull i.Isp,
   i.Country_id, i.Province_id, i.City_id, i.Isp_id, i.Location_id⟩

/-- Embeds the `switch len(fields)` dispatch of `newLocationInfo`
(lines 179-216) over the already-split field list.  `fields[i]` for an
index that the length guarantees in range is written `getD i []`.
The `default` branch panics. -/
def newLocationInfoFields (fields : List (List Nat)) : ParseOutcome :=
  if fields.length = 4 then
    -- free version
    .ok (normalizeInfo ⟨fields.getD 0 [], fields.getD 1 [], fields.getD 2 [],
      [], 0, 0, 0, 0, 0⟩)
  else if fields.length = 5 then
    -- pay version
    .ok (normalizeInfo ⟨fields.getD 0 [], fields.getD 1 [], fields.getD 2 [],
      fields.getD 4 [], 0, 0, 0, 0, 0⟩)
  else if fields.length = 10 then
    -- specific version
    .ok (normalizeInfo ⟨fields.getD 0 [], fields.getD 1 [], fields.getD 2 [],
      fields.getD 3 [],
      (goParseInt64 (fields.getD 4 [])).1,
      (goParseInt64 (fields.getD 5 [])).1,
      (goParseInt64 (fields.getD 6 [])).1,
      (goParseInt64 (fields.getD 7 [])).1,
      (goParseUint64 (fields.getD 8 [])).1⟩)
  else .panics

/-- Embeds `newLocationInfo(str []byte)` (lines 175-231): split the record
bytes on the tab byte (9) and dispatch on the field count. -/
def newLocationInfo (str : List Nat) : ParseOutcome :=
  newLocationInfoFields (splitByte 9 str)

example : splitByte 9 (bytesOf "a\tb\tc") = [bytesOf "a", bytesOf "b", bytesOf "c"] := by decide

example : newLocationInfo (bytesOf "US\tCA\tLos Angeles\t") =
    .ok ⟨bytesOf "US", bytesOf "CA", bytesOf "Los Angeles", Null, 0, 0, 0, 0, 0⟩ := by decide

example : newLocationInfo (bytesOf "CN\t\t\tChinaNet\t1\t2\t3\t4\t5\t") =
    .ok ⟨bytesOf "CN", Null, Null, bytesOf "ChinaNet", 1, 2, 3, 4, 5⟩ := by decide

example : newLocationInfo (bytesOf "a\tb\tc") = .panics := by decide

example : (goParseInt64 (bytesOf "9223372036854775808")).1 = 9223372036854775807 := by decide

example : (goParseInt64 (bytesOf "-42")).1 = -42 := by decide

example : (goParseInt64 (bytesOf "x42")).1 = 0 := by decide

/-- Embeds `type Locator` (ip17mon.go lines 88-94): `textData` the text
blob bytes, `indexData1` the `uint32` range boundaries, `indexData2` the
record offsets, `indexData3` the record lengths, `index` the 256-entry
prefix index.  The Go `int` values here are all non-negative (built from
`uint32`/byte data), so `Nat` is used. -/
structure Locator where
  textData : List Nat
  indexData1 : List Nat
  indexData2 : List Nat
  indexData3 : List Nat
  index : List Nat
deriving DecidableEq, Repr

/-- Byte `i` of a buffer (`getD` with default 0; every use either sits
behind the bounds checks of the embedded code or is hypothesized in
range). -/
def byteAt (d : List Nat) (i : Nat) : Nat := d.getD i 0

/-- Big-endian `uint32` read at offset `off`, as in
`binary.BigEndian.Uint32(data[off:off+4])`. -/
def beU32 (d : List Nat) (off : Nat) : Nat :=
  byteAt d off * 2 ^ 24 + byteAt d (off + 1) * 2 ^ 16 +
    byteAt d (off + 2) * 2 ^ 8 + byteAt d (off + 3)

/-- Little-endian `uint32` read at offset `off`, as in
`binary.LittleEndian.Uint32(data[off:off+4])`. -/
def leU32 (d : List Nat) (off : Nat) : Nat :=
  byteAt d off + byteAt d (off + 1) * 2 ^ 8 +
    byteAt d (off + 2) * 2 ^ 16 + byteAt d (off + 3) * 2 ^ 24

/-- Kinds of Go runtime panic that `Locator.init` can raise. -/
inductive GoPanic where
  | sliceBounds
  | makesliceNegLen
deriving DecidableEq, Repr

/-- Outcome of `Locator.init` / `NewLocatorWithData`: the Go code returns
`*Locator` with no error value; every failure on malformed input is a
runtime panic. -/
inductive InitOutcome where
  | ok (loc : Locator)
  | panics (p : GoPanic)
deriving DecidableEq, Repr

/-- True when the outcome is a panic (no Locator produced). -/
def InitOutcome.isPanic : InitOutcome → Bool
  | .ok _ => false
  | .panics _ => true

/-- Embeds `Locator.init(data)` together with `NewLocatorWithData`
(ip17mon.go lines 82-86 and 149-173), making the Go runtime panics
explicit in source order:
1. `data[:4]` panics when `len(data) < 4`;
2. `data[textoff-1024:]` panics when `textoff < 1024` or
   `textoff - 1024 > len(data)`;
3. the 256-entry prefix-index loop reads `data[4+i*4 : 4+i*4+4]` and
   panics when `len(data) < 1028`;
4. `nidx = (textoff - 4 - 1024 - 1024) / 8` uses Go's
   truncated-toward-zero division, so `nidx` is negative exactly when
   `textoff ≤ 2044`, and `make([]uint32, nidx)` then panics; for
   `2045 ≤ textoff ≤ 2052` the quotient truncates to 0, matching the
   `Nat` subtraction-then-division below;
5. the record loop reads `data[1028+i*8 : 1028+i*8+8]`; the guard below
   mirrors its bounds panic (it is unreachable once check 2 has passed,
   since `nidx*8 ≤ textoff - 2052`).
No semantic validation (sortedness, offset bounds) is performed. -/
def locatorInit (data : List Nat) : InitOutcome :=
  if data.length < 4 then .panics .sliceBounds
  else
    let textoff := beU32 data 0
    if textoff < 1024 ∨ data.length < textoff - 1024 then .panics .sliceBounds
    else if data.length < 1028 then .panics .sliceBounds
    else if textoff < 2045 then .panics .makesliceNegLen
    else
      let nidx := (textoff - 2052) / 8
      if data.length < 1028 + nidx * 8 then .panics .sliceBounds
      else .ok
        { textData := data.drop (textoff - 1024)
          indexData1 := (List.range nidx).map (fun i => beU32 data (1028 + i * 8))
          indexData2 := (List.range nidx).map (fun i =>
            byteAt data (1028 + i * 8 + 4) + byteAt data (1028 + i * 8 + 5) * 2 ^ 8 +
              byteAt data (1028 + i * 8 + 6) * 2 ^ 16)
          indexData3 := (List.range nidx).map (fun i => byteAt data (1028 + i * 8 + 7))
          index := (List.range 256).map (fun i => leU32 data (4 + i * 4)) }

/-- Embeds the loop and final boundary check of
`Locator.findIndexOffset` (lines 132-147).  The `fuel` argument bounds
the iteration count; the wrapper `findIndexOffset` supplies `e - start`,
which suffices because each iteration shrinks `e - start` by at least
one, and at `fuel = 0` the gap is already closed so the Go loop
condition `start < end` is false and only the final check
`if indexData1[end] >= ip { return end }; return start` remains. -/
def findIndexOffsetAux (a : List Nat) (ip : Nat) : Nat → Nat → Nat → Nat
  | 0, start, e => if ip ≤ a.getD e 0 then e else start
  | fuel + 1, start, e =>
    if start < e then
      let mid := (start + e) / 2
      if a.getD mid 0 < ip then findIndexOffsetAux a ip fuel (mid + 1) e
      else findIndexOffsetAux a ip fuel start mid
    else if ip ≤ a.getD e 0 then e else start

/-- Embeds `Locator.findIndexOffset(ip, start, end)` (lines 132-147). -/
def findIndexOffset (a : List Nat) (ip start e : Nat) : Nat :=
  findIndexOffsetAux a ip (e - start) start e

/-- The sub-range bounds computed by `Locator.FindByUint` (lines 122-126):
`start = index[ip>>24]`; `end = index[ip>>24+1]` unless the top octet is
`0xff`, in which case `end = len(indexData1) - 1`.  (For an empty
`indexData1` Go would compute `end = -1`; the `Nat` subtraction below
agrees with Go whenever `indexData1` is non-empty, which the theorems
hypothesize.) -/
def lookupBounds (loc : Locator) (ip : Nat) : Nat × Nat :=
  let e := if ip >>> 24 ≠ 0xff then loc.index.getD (ip >>> 24 + 1) 0
           else loc.indexData1.length - 1
  (loc.index.getD (ip >>> 24) 0, e)

/-- Embeds `Locator.FindByUint(ip)` (lines 121-129): bound the sub-range
from the prefix index, binary-search it, then parse the record bytes
`textData[off : off+len]` (modelled by `drop`/`take`). -/
def Locator.FindByUint (loc : Locator) (ip : Nat) : ParseOutcome :=
  let b := lookupBounds loc ip
  let idx := findIndexOffset loc.indexData1 ip b.1 b.2
  let off := loc.indexData2.getD idx 0
  newLocationInfo ((loc.textData.drop off).take (loc.indexData3.getD idx 0))

/-- Models Go `net`'s decimal-field reader `dtoi`: consume leading decimal
digits, returning `(value, consumed, ok)`; `ok` is false when no digit was
consumed or the running value reached the cap `0xFFFFFF`. -/
def dtoiLoop : List Char → Nat → Nat → Nat × Nat × Bool
  | [], n, i => (n, i, true)
  | c :: rest, n, i =>
    if '0' ≤ c ∧ c ≤ '9' then
      let n1 := n * 10 + (c.toNat - 48)
      if 0xFFFFFF ≤ n1 then (0xFFFFFF, i, false)
      else dtoiLoop rest n1 (i + 1)
    else (n, i, true)

/-- Wrapper completing the `dtoi` model: zero digits consumed is a failure. -/
def dtoiGo (s : List Char) : Nat × Nat × Bool :=
  let r := dtoiLoop s 0 0
  if r.2.1 = 0 then (0, 0, false) else r

/-- Hexadecimal digit value, as accepted by Go `net`'s `xtoi`. -/
def hexVal (c : Char) : Option Nat :=
  if '0' ≤ c ∧ c ≤ '9' then some (c.toNat - 48)
  else if 'a' ≤ c ∧ c ≤ 'f' then some (c.toNat - 97 + 10)
  else if 'A' ≤ c ∧ c ≤ 'F' then some (c.toNat - 65 + 10)
  else none

/-- Models Go `net`'s hex-field reader `xtoi`, analogous to `dtoiLoop`. -/
def xtoiLoop : List Char → Nat → Nat → Nat × Nat × Bool
  | [], n, i => (n, i, true)
  | c :: rest, n, i =>
    match hexVal c with
    | some d =>
      let n1 := n * 16 + d
      if 0xFFFFFF ≤ n1 then (0xFFFFFF, i, false)
      else xtoiLoop rest n1 (i + 1)
    | none => (n, i, true)

/-- Wrapper completing the `xtoi` model: zero digits consumed is a failure. -/
def xtoiGo (s : List Char) : Nat × Nat × Bool :=
  let r := xtoiLoop s 0 0
  if r.2.1 = 0 then (0, 0, false) else r

/-- The 12-byte IPv4-in-IPv6 mapping header `::ffff:0:0/96` that Go's
`net.IPv4` constructor prepends. -/
def v4MappedHead : List Nat :=
  [0, 0, 0, 0, 0, 0, 0, 0, 0, 0, 0xff, 0xff]

/-- One field of Go `net`'s `parseIPv4` loop: for field index > 0 expect a
leading dot, then read a decimal value ≤ 255 with no surplus leading zero. -/
def goParseIPv4Aux : Nat → List Char → List Nat → Option (List Nat)
  | 0, s, acc => if s = [] then some acc else none
  | k + 1, s, acc =>
    if s = [] then none
    else
      match (if 0 < acc.length then
               (match s with | '.' :: r => some r | _ => none)
             else some s) with
      | none => none
      | some s2 =>
        let r := dtoiGo s2
        if r.2.2 = false ∨ 255 < r.1 then none
        else if 1 < r.2.1 ∧ s2.headD ' ' = '0' then none
        else goParseIPv4Aux k (s2.drop r.2.1) (acc ++ [r.1])

/-- Models Go `net`'s `parseIPv4`: four dot-separated decimal octets,
returned in the 16-byte IPv4-in-IPv6 form that `net.IPv4` produces. -/
def goParseIPv4 (s : List Char) : Option (List Nat) :=
  (goParseIPv4Aux 4 s []).map (fun p => v4MappedHead ++ p)

/-- Final assembly step of Go `net`'s `parseIPv6`: expand the `::` ellipsis
(at byte position `e`) with zeros to reach 16 bytes; a full 16-byte address
must not also contain an ellipsis, and a short one must contain one. -/
def v6Finish (acc : List Nat) (ell : Option Nat) : Option (List Nat) :=
  if acc.length < 16 then
    match ell with
    | none => none
    | some e => some (acc.take e ++ List.replicate (16 - acc.length) 0 ++ acc.drop e)
  else
    match ell with
    | none => some acc
    | some _ => none

/-- The main loop of Go `net`'s `parseIPv6`: read 16-bit hex groups
separated by `:`, tracking the ellipsis position; a group followed by `.`
switches to an embedded IPv4 tail (requiring position 12 when no ellipsis
was seen).  `fuel` bounds the iterations; each pass appends two bytes to
`acc`, so fuel 17 is never exhausted from an empty accumulator. -/
def v6Loop : Nat → List Char → List Nat → Option Nat → Option (List Nat)
  | 0, _, _, _ => none
  | fuel + 1, s, acc, ell =>
    if 16 ≤ acc.length then (if s = [] then v6Finish acc ell else none)
    else
      let r := xtoiGo s
      if r.2.2 = false ∨ 0xFFFF < r.1 then none
      else if r.2.1 < s.length ∧ s.getD r.2.1 ' ' = '.' then
        if ell = none ∧ acc.length ≠ 12 then none
        else if 16 < acc.length + 4 then none
        else
          match goParseIPv4 s with
          | none => none
          | some ip4 => v6Finish (acc ++ ip4.drop 12) ell
      else
        let acc2 := acc ++ [r.1 / 256, r.1 % 256]
        let s2 := s.drop r.2.1
        if s2 = [] then v6Finish acc2 ell
        else if s2.headD ' ' ≠ ':' ∨ s2.length = 1 then none
        else
          let s3 := s2.drop 1
          if s3.headD ' ' = ':' then
            if ell ≠ none then none
            else
              let s4 := s3.drop 1
              if s4 = [] then v6Finish acc2 (some acc2.length)
              else v6Loop fuel s4 acc2 (some acc2.length)
          else v6Loop fuel s3 acc2 ell

/-- Models Go `net`'s `parseIPv6`: handle a leading `::` (possibly the
whole address), then run the group loop. -/
def goParseIPv6 (s : List Char) : Option (List Nat) :=
  if 2 ≤ s.length ∧ s.getD 0 ' ' = ':' ∧ s.getD 1 ' ' = ':' then
    let s2 := s.drop 2
    if s2 = [] then some (List.replicate 16 0)
    else v6Loop 17 s2 [] (some 0)
  else v6Loop 17 s [] none

/-- Models `net.ParseIP` (called by `Locator.Find`): scan for the first
`.` or `:`; a dot means dotted-decimal IPv4, a colon means IPv6, neither
means failure (`nil`). -/
def goParseIP (str : String) : Option (List Nat) :=
  match str.toList.find? (fun c => c == '.' || c == ':') with
  | some c => if c = '.' then goParseIPv4 str.toList else goParseIPv6 str.toList
  | none => none

/-- Models `net.IP.To4`: a 4-byte address is returned as is; a 16-byte
address is reduced to its last 4 bytes only when it carries the
IPv4-in-IPv6 prefix (10 zero bytes then `0xff 0xff`); otherwise `nil`. -/
def goTo4 (ip : List Nat) : Option (List Nat) :=
  if ip.length = 4 then some ip
  else if ip.length = 16 ∧ (ip.take 10).all (· == 0) ∧
      ip.getD 10 0 = 0xff ∧ ip.getD 11 0 = 0xff then
    some (ip.drop 12)
  else none

/-- Outcome of `Locator.Find`: a record, the `ErrInvalidIp` error, or a
runtime panic (either `binary.BigEndian.Uint32` on the `nil` result of
`To4`, or the record-parser panic propagating). -/
inductive FindOutcome where
  | ok (info : LocationInfo)
  | errInvalidIp
  | panics
deriving DecidableEq, Repr

/-- Embeds `Locator.Find(ipstr)` (lines 110-118): `net.ParseIP` failing
yields `ErrInvalidIp`; otherwise `binary.BigEndian.Uint32([]byte(ip.To4()))`
is taken, which panics with an index-out-of-range when `To4` returns `nil`
(an address with no IPv4 form); otherwise the lookup proceeds by uint32. -/
def Locator.Find (loc : Locator) (ipstr : String) : FindOutcome :=
  match goParseIP ipstr with
  | none => .errInvalidIp
  | some ip =>
    match goTo4 ip with
    | none => .panics
    | some bs =>
      match loc.FindByUint (beU32 bs 0) with
      | .ok info => .ok info
      | .panics => .panics

example : goParseIP "::1" =
    some [0, 0, 0, 0, 0, 0, 0, 0, 0, 0, 0, 0, 0, 0, 0, 1] := by decide

example : goParseIP "1.2.3.4" = some (v4MappedHead ++ [1, 2, 3, 4]) := by decide

example : goParseIP "not-an-ip" = none := by decide

example : goParseIP "::ffff:1.2.3.4" = some (v4MappedHead ++ [1, 2, 3, 4]) := by decide

example : goTo4 [0, 0, 0, 0, 0, 0, 0, 0, 0, 0, 0, 0, 0, 0, 0, 1] = none := by decide

example : goParseIP "2001:db8::8a2e:370:7334" =
    some [0x20, 0x01, 0x0d, 0xb8, 0, 0, 0, 0, 0, 0, 0x8a, 0x2e, 0x03, 0x70, 0x73, 0x34] := by decide

/-- The package-level registry state (ip17mon.go lines 15-21): the three
`*Locator` variables `std` (active), `olddata` and `newdata`.  Locator
instances are identified by generation numbers, `none` modelling a `nil`
pointer. -/
structure Registry where
  std : Option Nat
  olddata : Option Nat
  newdata : Option Nat
deriving DecidableEq, Repr

/-- Embeds `Init(dataFile)` (lines 24-36) under the lock: a no-op when
`std` is already set; otherwise `std, err = NewLocator(dataFile)` and, on
success only, `olddata, newdata = std, std`.  `res` is the outcome of
`NewLocator`: `some g` a freshly built Locator, `none` an error (in which
case `std` is assigned `nil`, which it already was). -/
def initStep (s : Registry) (res : Option Nat) : Registry :=
  if s.std ≠ none then s
  else
    match res with
    | some g => ⟨some g, some g, some g⟩
    | none => s

/-- Embeds `Reload(dataFile)` (lines 39-47) under the lock, with `res` the
outcome of `NewLocator`.  The Go body runs unconditionally — the swap is
NOT guarded by `err == nil`:
`olddata, err = NewLocator(dataFile); olddata, newdata = newdata, olddata;
std = newdata`, which ends with `olddata = old newdata`, `newdata = res`,
`std = res` whether or not an error is returned. -/
def reloadStep (s : Registry) (res : Option Nat) : Registry :=
  ⟨res, s.newdata, res⟩

/-- Whether `Reload` reports an error for this `NewLocator` outcome
(`return err` with a non-nil `err`). -/
def reloadReportsError (res : Option Nat) : Bool := res.isNone

/-- Registry states reachable from the zero-value package state through
any sequence of `Init` and `Reload` calls, with arbitrary `NewLocator`
outcomes. -/
inductive Reachable : Registry → Prop
  | zero : Reachable ⟨none, none, none⟩
  | doInit : ∀ (s : Registry) (res : Option Nat),
      Reachable s → Reachable (initStep s res)
  | doReload : ∀ (s : Registry) (res : Option Nat),
      Reachable s → Reachable (reloadStep s res)

example : initStep ⟨none, none, none⟩ (some 1) = ⟨some 1, some 1, some 1⟩ := by decide

example : reloadStep ⟨some 1, some 1, some 1⟩ (some 2) = ⟨some 2, some 1, some 2⟩ := by decide

example : reloadStep ⟨some 1, some 1, some 1⟩ none = ⟨none, some 1, none⟩ := by decide

/-! Helper lemmas. -/

theorem getD_of_lt (l : List Nat) (i : Nat) (h : i < l.length) :
    l.getD i 0 = l.get ⟨i, h⟩ := by
  simp [List.getD_eq_getElem, h]

theorem sorted_getD_mono {a : List Nat} (hs : List.Sorted (· ≤ ·) a) {i j : Nat}
    (hij : i ≤ j) (hj : j < a.length) : a.getD i 0 ≤ a.getD j 0 := by
  have hi : i < a.length := lt_of_le_of_lt hij hj
  rw [getD_of_lt a i hi, getD_of_lt a j hj]
  exact hs.rel_get_of_le hij

theorem getD_set_ne {α : Type} (x d : α) :
    ∀ (l : List α) (i j : Nat), i ≠ j → (l.set i x).getD j d = l.getD j d := by
  intro l
  induction l with
  | nil => intro i j _; rfl
  | cons a t ih =>
    intro i j hij
    cases i with
    | zero =>
      cases j with
      | zero => exact absurd rfl hij
      | succ j => simp
    | succ i =>
      cases j with
      | zero => simp
      | succ j =>
        simp only [List.set_cons_succ, List.getD_cons_succ]
        exact ih i j (fun e => hij (congrArg Nat.succ e))

/-! Claim theorems. -/

/-- C1: evaluation of `Reload` at a failing `NewLocator` outcome from an
initialized registry.  The body swaps generations even when `err != nil`,
so the reported-error case ends with `std = nil`: the previously active
Locator (generation 1) is dropped from `std`/`newdata` instead of being
left serving, contradicting the claim that the registry state is not
modified on failure. -/
theorem reload_error_clobbers_active :
    reloadStep ⟨some 1, some 1, some 1⟩ none = ⟨none, some 1, none⟩ ∧
    reloadReportsError none = true := by decide

/-- C2 counterexample: decoding the empty buffer does not return any error
value — `NewLocatorWithData` has no error result at all — it panics on the
slice expression `data[:4]`, as the embedding records. -/
theorem locatorInit_empty_buffer_panics :
    locatorInit [] = .panics .sliceBounds := by decide

/-- C2 amended: for a buffer shorter than the minimum header size (1028
bytes), or whose `textOffset` underflows the header sizes, or for which
the computed record count `N` is negative (`textOffset ≤ 2044`), decoding
fails by a Go runtime panic — not by returning a `DecodeError` value,
which does not exist — and no Locator is produced. -/
theorem locatorInit_malformed_panics (data : List Nat)
    (h : data.length < 1028 ∨ beU32 data 0 < 1024 ∨ beU32 data 0 < 2045) :
    (locatorInit data).isPanic = true := by
  simp only [locatorInit]
  split_ifs with h1 h2 h3 h4 h5
  all_goals try rfl
  exfalso
  rcases h with h | h | h
  · exact h3 h
  · exact (not_or.mp h2).1 h
  · exact h4 h

/-- C2 witness: the empty buffer satisfies the length condition and the
decoder panics on it. -/
theorem locatorInit_malformed_panics_witness :
    (locatorInit []).isPanic = true :=
  locatorInit_malformed_panics [] (Or.inl (by decide))

/-- C3 counterexample: a record with three tab-separated fields does not
make `newLocationInfo` return a ParseError value — the function returns
only `*LocationInfo` — it hits `panic("unexpected ip info:" + ...)`. -/
theorem parse_three_fields_panics :
    newLocationInfo (bytesOf "a\tb\tc") = .panics := by decide

/-- C3 amended: for every record whose tab-split field count is not 4, 5
or 10, `newLocationInfo` fails by a runtime panic (there is no error
return and no `ParseError` value); the Locator itself is a value the
lookup only reads, so it is not modified by the failed parse. -/
theorem parse_bad_field_count_panics (fs : List (List Nat))
    (h : ¬ (fs.length = 4 ∨ fs.length = 5 ∨ fs.length = 10)) :
    newLocationInfoFields fs = .panics := by
  unfold newLocationInfoFields
  split_ifs with h4 h5 h10
  · exact absurd (Or.inl h4) h
  · exact absurd (Or.inr (Or.inl h5)) h
  · exact absurd (Or.inr (Or.inr h10)) h
  · rfl

/-- C3 witness: a two-field record panics. -/
theorem parse_bad_field_count_panics_witness :
    newLocationInfoFields [[], []] = .panics :=
  parse_bad_field_count_panics [[], []] (by decide)

/-- C7: the schema dispatch of `newLocationInfo`.  With 4 fields, fields
0-2 become country, region, city and isp is absent (hence the sentinel
after normalization); with 5 fields, field 3 is unused and field 4 is the
isp; with 10 fields, fields 0-3 are the four text fields and fields 4-8,
parsed as decimal integers (unsigned for the location id), become the five
numeric ids. -/
theorem schema_dispatch (fs : List (List Nat)) :
    (fs.length = 4 → newLocationInfoFields fs =
      .ok ⟨normNull (fs.getD 0 []), normNull (fs.getD 1 []), normNull (fs.getD 2 []),
        Null, 0, 0, 0, 0, 0⟩) ∧
    (fs.length = 5 → (newLocationInfoFields fs =
      .ok ⟨normNull (fs.getD 0 []), normNull (fs.getD 1 []), normNull (fs.getD 2 []),
        normNull (fs.getD 4 []), 0, 0, 0, 0, 0⟩) ∧
      ∀ x, newLocationInfoFields (fs.set 3 x) = newLocationInfoFields fs) ∧
    (fs.length = 10 → newLocationInfoFields fs =
      .ok ⟨normNull (fs.getD 0 []), normNull (fs.getD 1 []), normNull (fs.getD 2 []),
        normNull (fs.getD 3 []),
        (goParseInt64 (fs.getD 4 [])).1, (goParseInt64 (fs.getD 5 [])).1,
        (goParseInt64 (fs.getD 6 [])).1, (goParseInt64 (fs.getD 7 [])).1,
        (goParseUint64 (fs.getD 8 [])).1⟩) := by
  refine ⟨fun h => ?_, fun h => ⟨?_, fun x => ?_⟩, fun h => ?_⟩
  · simp [newLocationInfoFields, h, normalizeInfo, normNull]
  · simp [newLocationInfoFields, h, normalizeInfo]
  · simp [newLocationInfoFields, List.length_set, h, getD_set_ne]
  · simp [newLocationInfoFields, h, normalizeInfo]

/-- C7 witness: the spec's concrete free-schema scenario
`"US\tCA\tLos Angeles\t"` (4 fields, last empty). -/
theorem schema_dispatch_witness :
    newLocationInfoFields [bytesOf "US", bytesOf "CA", bytesOf "Los Angeles", []] =
      .ok ⟨bytesOf "US", bytesOf "CA", bytesOf "Los Angeles", bytesOf "N/A",
        0, 0, 0, 0, 0⟩ := by
  have h := (schema_dispatch [bytesOf "US", bytesOf "CA", bytesOf "Los Angeles", []]).1 rfl
  exact h.trans (by decide)

/-- C8: every successfully parsed record replaces each empty text field —
including the absent isp of the 4-field schema — with the `Null` sentinel,
whatever the schema variant. -/
theorem empty_fields_get_sentinel (fs : List (List Nat)) (info : LocationInfo)
    (hok : newLocationInfoFields fs = .ok info) :
    (fs.getD 0 [] = [] → info.Country = Null) ∧
    (fs.getD 1 [] = [] → info.Region = Null) ∧
    (fs.getD 2 [] = [] → info.City = Null) ∧
    (fs.length = 4 → info.Isp = Null) ∧
    (fs.length = 5 → fs.getD 4 [] = [] → info.Isp = Null) ∧
    (fs.length = 10 → fs.getD 3 [] = [] → info.Isp = Null) := by
  unfold newLocationInfoFields at hok
  split_ifs at hok with h4 h5 h10
  · injection hok with h; subst h
    refine ⟨fun h0 => ?_, fun h1 => ?_, fun h2 => ?_, fun _ => ?_,
      fun h5' => ?_, fun h10' => ?_⟩
    · show normNull (fs.getD 0 []) = Null; rw [h0]; rfl
    · show normNull (fs.getD 1 []) = Null; rw [h1]; rfl
    · show normNull (fs.getD 2 []) = Null; rw [h2]; rfl
    · show normNull [] = Null; rfl
    · exfalso; omega
    · exfalso; omega
  · injection hok with h; subst h
    refine ⟨fun h0 => ?_, fun h1 => ?_, fun h2 => ?_, fun h4' => ?_,
      fun _ hf => ?_, fun h10' => ?_⟩
    · show normNull (fs.getD 0 []) = Null; rw [h0]; rfl
    · show normNull (fs.getD 1 []) = Null; rw [h1]; rfl
    · show normNull (fs.getD 2 []) = Null; rw [h2]; rfl
    · exfalso; omega
    · show normNull (fs.getD 4 []) = Null; rw [hf]; rfl
    · exfalso; omega
  · injection hok with h; subst h
    refine ⟨fun h0 => ?_, fun h1 => ?_, fun h2 => ?_, fun h4' => ?_,
      fun h5' => ?_, fun _ hf => ?_⟩
    · show normNull (fs.getD 0 []) = Null; rw [h0]; rfl
    · show normNull (fs.getD 1 []) = Null; rw [h1]; rfl
    · show normNull (fs.getD 2 []) = Null; rw [h2]; rfl
    · exfalso; omega
    · exfalso; omega
    · show normNull (fs.getD 3 []) = Null; rw [hf]; rfl

/-- C8 witness: a 4-field record with empty region and empty trailing
field normalizes region and isp to the sentinel. -/
theorem empty_fields_get_sentinel_witness :
    newLocationInfoFields [bytesOf "x", [], bytesOf "y", []] =
      .ok ⟨bytesOf "x", Null, bytesOf "y", Null, 0, 0, 0, 0, 0⟩ ∧
    (⟨bytesOf "x", Null, bytesOf "y", Null, 0, 0, 0, 0, 0⟩ : LocationInfo).Region = Null := by
  refine ⟨by decide, ?_⟩
  exact (empty_fields_get_sentinel [bytesOf "x", [], bytesOf "y", []]
    ⟨bytesOf "x", Null, bytesOf "y", Null, 0, 0, 0, 0, 0⟩ (by decide)).2.1 rfl

/-- C9 counterexample: the 10-field numeric subfield
`"9223372036854775808"` (2^63) fails `strconv.ParseInt` with a range
error, yet the resulting id is the clamped maximum `2^63 - 1`, not zero as
the claim states. -/
theorem overflow_field_not_zero :
    (goParseInt64 (bytesOf "9223372036854775808")).2 = false ∧
    (goParseInt64 (bytesOf "9223372036854775808")).1 ≠ 0 ∧
    newLocationInfoFields [bytesOf "CN", bytesOf "R", bytesOf "C", bytesOf "ISP",
        bytesOf "9223372036854775808", bytesOf "2", bytesOf "3", bytesOf "4",
        bytesOf "5", []] =
      .ok ⟨bytesOf "CN", bytesOf "R", bytesOf "C", bytesOf "ISP",
        9223372036854775807, 2, 3, 4, 5⟩ :=
  ⟨by decide, by decide, by decide⟩

/-- C9 amended: in the 10-field schema every numeric id is the value of
the Go parse with its error discarded; a failed parse yields zero when the
failure is a syntax error, but yields the clamped 64-bit extreme
(`2^63 - 1`, `-2^63`, or `2^64 - 1` for the unsigned location id) when the
failure is a range error; no error is raised and the other fields are
unaffected. -/
theorem numeric_fields_zero_or_clamped (fs : List (List Nat)) (h : fs.length = 10) :
    newLocationInfoFields fs =
      .ok ⟨normNull (fs.getD 0 []), normNull (fs.getD 1 []), normNull (fs.getD 2 []),
        normNull (fs.getD 3 []),
        (goParseInt64 (fs.getD 4 [])).1, (goParseInt64 (fs.getD 5 [])).1,
        (goParseInt64 (fs.getD 6 [])).1, (goParseInt64 (fs.getD 7 [])).1,
        (goParseUint64 (fs.getD 8 [])).1⟩ ∧
    (∀ s, (goParseInt64 s).2 = false →
      (goParseInt64 s).1 = 0 ∨ (goParseInt64 s).1 = (2 : Int) ^ 63 - 1 ∨
        (goParseInt64 s).1 = -(2 : Int) ^ 63) ∧
    (∀ s, (goParseUint64 s).2 = false →
      (goParseUint64 s).1 = 0 ∨ (goParseUint64 s).1 = maxU64) := by
  refine ⟨?_, ?_, ?_⟩
  · simp [newLocationInfoFields, h, normalizeInfo]
  · intro s hs
    simp only [goParseInt64] at hs ⊢
    split_ifs at hs ⊢ <;> simp_all
  · intro s hs
    simp only [goParseUint64] at hs ⊢
    split_ifs at hs ⊢ <;> simp_all

/-- C9 witness: the spec's concrete 10-field scenario
`"CN\t\t\tChinaNet\t1\t2\t3\t4\t5\t"`. -/
theorem numeric_fields_zero_or_clamped_witness :
    newLocationInfoFields [bytesOf "CN", [], [], bytesOf "ChinaNet",
        bytesOf "1", bytesOf "2", bytesOf "3", bytesOf "4", bytesOf "5", []] =
      .ok ⟨bytesOf "CN", Null, Null, bytesOf "ChinaNet", 1, 2, 3, 4, 5⟩ := by
  have h := (numeric_fields_zero_or_clamped [bytesOf "CN", [], [], bytesOf "ChinaNet",
    bytesOf "1", bytesOf "2", bytesOf "3", bytesOf "4", bytesOf "5", []] rfl).1
  exact h.trans (by decide)

/-- C5: for every `uint32` address, the lookup sub-range of `FindByUint`
is `start = index[b]` with `end = index[b+1]` when the top octet `b` is
not 255, and `end = N - 1` (the last valid index of `indexData1`) when
`b = 255`; the top octet never indexes past the 256-entry prefix index
(`b < 256`, and `b + 1 < 256` is only used when `b ≠ 255`), nor past the
range array (`N - 1 < N`). -/
theorem lookupBounds_top_octet (loc : Locator) (ip : Nat) (hip : ip < 2 ^ 32)
    (hidx : loc.index.length = 256) (hN : 1 ≤ loc.indexData1.length) :
    ip >>> 24 < loc.index.length ∧
    (ip >>> 24 ≠ 255 → lookupBounds loc ip =
      (loc.index.getD (ip >>> 24) 0, loc.index.getD (ip >>> 24 + 1) 0) ∧
      ip >>> 24 + 1 < loc.index.length) ∧
    (ip >>> 24 = 255 → lookupBounds loc ip =
      (loc.index.getD (ip >>> 24) 0, loc.indexData1.length - 1) ∧
      loc.indexData1.length - 1 < loc.indexData1.length) := by
  have hb : ip >>> 24 < 256 := by
    rw [Nat.shiftRight_eq_div_pow]
    have : ip < 256 * 2 ^ 24 := by norm_num at hip ⊢; omega
    exact Nat.div_lt_of_lt_mul (by omega)
  refine ⟨by omega, fun hne => ⟨?_, by omega⟩, fun he => ⟨?_, by omega⟩⟩
  · simp [lookupBounds, hne]
  · simp [lookupBounds, he]

set_option maxRecDepth 8192 in
/-- C5 witness: a Locator with a 256-entry prefix index and one range
entry, looked up at an address with top octet `0xff`
(`4278190080 = 0xff000000`): the bounds are `(index[255], N-1) = (0, 0)`
and the end index is in range. -/
theorem lookupBounds_top_octet_witness :
    lookupBounds ⟨[], [0], [0], [0], List.replicate 256 0⟩ 4278190080 = (0, 0) ∧
    (0 : Nat) < 1 := by
  have h := (lookupBounds_top_octet ⟨[], [0], [0], [0], List.replicate 256 0⟩
    4278190080 (by decide) (by decide) (by decide)).2.2 rfl
  exact ⟨h.1.trans (by decide), h.2⟩

/-- The registry invariant: in every reachable state `newdata` aliases
`std` (both `Init` and `Reload` end with `std = newdata`). -/
theorem reachable_newdata_eq_std : ∀ s, Reachable s → s.newdata = s.std := by
  intro s h
  induction h with
  | zero => rfl
  | doInit s res _ ih =>
    unfold initStep
    split_ifs with hs
    · exact ih
    · cases res
      · exact ih
      · rfl
  | doReload s res _ ih => rfl

/-- C6: the two-slot retained-generation scheme of `Reload`.  In every
reachable registry state the referenced Locators are only the active one
(`std`) and at most one previous generation (`olddata`); a successful
`Reload` installs the new Locator as active and retains the previously
active one in `olddata`; after one further successful `Reload` (with
fresh generations) the original generation is no longer referenced
anywhere in the registry. -/
theorem reload_generation_scheme (s : Registry) (hs : Reachable s) :
    (∀ x, (x = s.std ∨ x = s.olddata ∨ x = s.newdata) → x = s.std ∨ x = s.olddata) ∧
    (∀ g gn, s.std = some g →
      (reloadStep s (some gn)).std = some gn ∧
      (reloadStep s (some gn)).olddata = some g) ∧
    (∀ g gn gn1, s.std = some g → g ≠ gn → g ≠ gn1 →
      (reloadStep (reloadStep s (some gn)) (some gn1)).std ≠ some g ∧
      (reloadStep (reloadStep s (some gn)) (some gn1)).olddata ≠ some g ∧
      (reloadStep (reloadStep s (some gn)) (some gn1)).newdata ≠ some g) := by
  have hinv := reachable_newdata_eq_std s hs
  refine ⟨?_, ?_, ?_⟩
  · intro x hx
    rcases hx with hx | hx | hx
    · exact Or.inl hx
    · exact Or.inr hx
    · exact Or.inl (hx.trans hinv)
  · intro g gn hg
    exact ⟨rfl, by simp [reloadStep, hinv, hg]⟩
  · intro g gn gn1 hg hne hne1
    refine ⟨?_, ?_, ?_⟩
    · simp [reloadStep]; exact fun e => hne1 e.symm
    · simp [reloadStep]; exact fun e => hne e.symm
    · simp [reloadStep]; exact fun e => hne1 e.symm

/-- C6 witness: from the state after a successful `Init` (generation 1),
a successful `Reload` to generation 2 installs 2 as active and retains 1
in `olddata`. -/
theorem reload_generation_scheme_witness :
    (reloadStep ⟨some 1, some 1, some 1⟩ (some 2)).std = some 2 ∧
    (reloadStep ⟨some 1, some 1, some 1⟩ (some 2)).olddata = some 1 := by
  have hr : Reachable ⟨some 1, some 1, some 1⟩ := by
    have h := Reachable.doInit ⟨none, none, none⟩ (some 1) Reachable.zero
    simpa [initStep] using h
  exact (reload_generation_scheme ⟨some 1, some 1, some 1⟩ hr).2.1 1 2 rfl

/-- Full characterization of the binary-search loop, by induction on the
fuel: starting from `start ≤ e` with enough fuel, the result `r` stays in
`[start, e]`, every index before `r` holds a value `< ip`, if any index in
`[start, e]` holds a value `≥ ip` then so does `r`, and if none does then
`r = e`. -/
theorem findIndexOffsetAux_spec {a : List Nat} {ip : Nat}
    (hs : List.Sorted (· ≤ ·) a) :
    ∀ (fuel start e : Nat), start ≤ e → e - start ≤ fuel → e < a.length →
      start ≤ findIndexOffsetAux a ip fuel start e ∧
      findIndexOffsetAux a ip fuel start e ≤ e ∧
      (∀ j, start ≤ j → j < findIndexOffsetAux a ip fuel start e →
        a.getD j 0 < ip) ∧
      ((∃ i, start ≤ i ∧ i ≤ e ∧ ip ≤ a.getD i 0) →
        ip ≤ a.getD (findIndexOffsetAux a ip fuel start e) 0) ∧
      ((∀ i, start ≤ i → i ≤ e → a.getD i 0 < ip) →
        findIndexOffsetAux a ip fuel start e = e) := by
  intro fuel
  induction fuel with
  | zero =>
    intro start e hse hf _
    have heq : start = e := by omega
    subst heq
    simp only [findIndexOffsetAux]
    split_ifs with hc
    · exact ⟨le_refl _, le_refl _, fun j h1 h2 => by omega,
        fun _ => hc, fun _ => rfl⟩
    · refine ⟨le_refl _, le_refl _, fun j h1 h2 => by omega, ?_, fun _ => rfl⟩
      rintro ⟨i, hi1, hi2, hi3⟩
      have : i = start := by omega
      subst this
      exact absurd hi3 hc
  | succ fuel ih =>
    intro start e hse hf hlen
    simp only [findIndexOffsetAux]
    split_ifs with hlt hmid hc
    · -- start < e and a[mid] < ip: recurse on [mid+1, e]
      have hm1 : start ≤ (start + e) / 2 := by omega
      have hm2 : (start + e) / 2 < e := by omega
      obtain ⟨g1, g2, g3, g4, g5⟩ :=
        ih ((start + e) / 2 + 1) e (by omega) (by omega) hlen
      refine ⟨by omega, g2, ?_, ?_, fun hall => g5 (fun i h1 h2 => hall i (by omega) h2)⟩
      · intro j h1 h2
        rcases Nat.lt_or_ge j ((start + e) / 2 + 1) with hj | hj
        · exact lt_of_le_of_lt
            (sorted_getD_mono hs (by omega) (lt_trans hm2 hlen)) hmid
        · exact g3 j hj h2
      · rintro ⟨i, hi1, hi2, hi3⟩
        rcases Nat.lt_or_ge i ((start + e) / 2 + 1) with hj | hj
        · exfalso
          have := sorted_getD_mono hs (show i ≤ (start + e) / 2 by omega)
            (lt_trans hm2 hlen)
          omega
        · exact g4 ⟨i, hj, hi2, hi3⟩
    · -- start < e and ip ≤ a[mid]: recurse on [start, mid]
      have hm1 : start ≤ (start + e) / 2 := by omega
      have hm2 : (start + e) / 2 < e := by omega
      obtain ⟨g1, g2, g3, g4, g5⟩ :=
        ih start ((start + e) / 2) (by omega) (by omega) (by omega)
      have hfound : ip ≤ a.getD (findIndexOffsetAux a ip fuel start ((start + e) / 2)) 0 :=
        g4 ⟨(start + e) / 2, hm1, le_refl _, by omega⟩
      refine ⟨g1, by omega, g3, fun _ => hfound, ?_⟩
      · intro hall
        exfalso
        have := hall ((start + e) / 2) hm1 (by omega)
        omega
    · -- loop finished (start = e), final check true
      have heq : start = e := by omega
      subst heq
      exact ⟨le_refl _, le_refl _, fun j h1 h2 => by omega, fun _ => hc, fun _ => rfl⟩
    · -- loop finished (start = e), final check false
      have heq : start = e := by omega
      subst heq
      refine ⟨le_refl _, le_refl _, fun j h1 h2 => by omega, ?_, fun _ => rfl⟩
      rintro ⟨i, hi1, hi2, hi3⟩
      have : i = start := by omega
      subst this
      exact absurd hi3 hc

/-- C4 counterexample: `indexData1 = [1, 5, 9]`, address 6, sub-range
`[0, 2]`.  The array is strictly increasing and `a[start] ≤ address`, yet
`findIndexOffset` returns index 2 with `a[2] = 9 > 6`, while the greatest
index whose entry is `≤ 6` is 1 — so the search does not return the
greatest index `i` with `rangeStarts[i] ≤ address` (it computes the least
`i` with `rangeStarts[i] ≥ address`). -/
theorem findIndexOffset_not_greatest_leq :
    List.Sorted (· < ·) [1, 5, 9] ∧
    List.getD [1, 5, 9] 0 0 ≤ 6 ∧
    findIndexOffset [1, 5, 9] 6 0 2 = 2 ∧
    ¬ List.getD [1, 5, 9] 2 0 ≤ 6 ∧
    List.getD [1, 5, 9] 1 0 ≤ 6 ∧ (1 : Nat) < 2 := by
  refine ⟨?_, by decide, by decide, by decide, by decide, by decide⟩
  decide

/-- C4 amended: for a non-decreasing `indexData1` and a valid sub-range
`[start, e]`, the binary search returns the LEAST index `i` in
`[start, e]` with `rangeStarts[i] ≥ address` when one exists, and `e`
when none does (the greatest-index-with-`≤` reading of the spec is
false); the post-loop tie-break is exactly the code's
`if rangeStarts[end] ≥ address then end else start`, the two branches
coinciding because the loop converges to `start = end`. -/
theorem findIndexOffset_least_geq (a : List Nat) (ip start e : Nat)
    (hs : List.Sorted (· ≤ ·) a) (hse : start ≤ e) (hlen : e < a.length) :
    start ≤ findIndexOffset a ip start e ∧
    findIndexOffset a ip start e ≤ e ∧
    (∀ j, start ≤ j → j < findIndexOffset a ip start e → a.getD j 0 < ip) ∧
    ((∃ i, start ≤ i ∧ i ≤ e ∧ ip ≤ a.getD i 0) →
      ip ≤ a.getD (findIndexOffset a ip start e) 0) ∧
    ((∀ i, start ≤ i → i ≤ e → a.getD i 0 < ip) →
      findIndexOffset a ip start e = e) :=
  findIndexOffsetAux_spec hs (e - start) start e hse (le_refl _) hlen

/-- C4 witness: on `[1, 5, 9]` with address 6 over `[0, 2]` the returned
index carries a value `≥ 6` (it is the least such index, 2). -/
theorem findIndexOffset_least_geq_witness :
    6 ≤ List.getD [1, 5, 9] (findIndexOffset [1, 5, 9] 6 0 2) 0 :=
  (findIndexOffset_least_geq [1, 5, 9] 6 0 2 (by decide) (by decide)
    (by decide)).2.2.2.1 ⟨2, by decide, by decide, by decide⟩

/-- C10: `Locator.Find` returns the invalid-address error exactly for
text that `net.ParseIP` rejects entirely; and the parser accepts `"::1"`
(an address with no IPv4 form), on which `Find` panics — the nil result
of `To4` is handed to `binary.BigEndian.Uint32` — instead of returning
the error or a record. -/
theorem find_error_iff_unparseable :
    (∀ (loc : Locator) (s : String),
      loc.Find s = .errInvalidIp ↔ goParseIP s = none) ∧
    (∀ loc : Locator, loc.Find "::1" = .panics) ∧
    (goParseIP "::1").isSome = true := by
  refine ⟨?_, ?_, by decide⟩
  · intro loc s
    unfold Locator.Find
    cases hp : goParseIP s with
    | none => simp
    | some ip =>
      simp only []
      cases h4 : goTo4 ip with
      | none => simp
      | some bs =>
        cases hu : loc.FindByUint (beU32 bs 0) <;> simp [hu]
  · intro loc
    have hp : goParseIP "::1" =
        some [0, 0, 0, 0, 0, 0, 0, 0, 0, 0, 0, 0, 0, 0, 0, 1] := by decide
    have h4 : goTo4 [0, 0, 0, 0, 0, 0, 0, 0, 0, 0, 0, 0, 0, 0, 0, 1] =
        none := by decide
    unfold Locator.Find
    rw [hp]
    simp [h4]

end Ip17mon
